import Mathlib

/-!
Verification model of the yamusic-tui streaming core.

The definitions below are a shallow embedding of the Go sources:
  - `api/readseeker.go` (the `HttpReadSeeker` buffered seekable stream),
  - `ui/components/tracker/tracker.go` (the playback controller), and
  - the mainpage ynison reconciliation handler.

Machine integers (`int64`) are modelled as `Int`; byte buffers as
`List Nat`; `float64` arithmetic as exact rational arithmetic with
explicit truncation/rounding functions mirroring Go conversions.
The live HTTP body is modelled as a reference in-memory source of
known content and length, read linearly: `content` holds the full
byte stream and `srcPos` the number of bytes consumed so far.
-/

namespace Yamusic

/-- Errors that can be produced by the modelled reader: `ok` is Go `nil`,
`eof` is `io.EOF`, `unexpectedEof` is `io.ErrUnexpectedEOF`,
`bodyReadAfterClose` is `http.ErrBodyReadAfterClose`, and `outOfSize`
is the `errOutOfSize` bounds error of `readseeker.go`. -/
inductive ReadErr where
  | ok
  | eof
  | unexpectedEof
  | bodyReadAfterClose
  | outOfSize
  deriving DecidableEq, Repr

/-- State of an `HttpReadSeeker` together with its modelled in-memory
source (`content`, `srcPos`, `srcClosed`) and an instrumentation counter
`closeCount` recording how many times `source.Close()` was invoked. -/
structure HttpReadSeeker where
  content : List Nat
  srcPos : Nat
  srcClosed : Bool
  closeCount : Nat
  readIndex : Int
  totalSize : Int
  buffer : List Nat
  buffered : Bool
  done : Bool
  deriving DecidableEq, Repr

/-- Result of one source read: bytes obtained, error, updated state. -/
structure SrcOut where
  bytes : List Nat
  err : ReadErr
  st : HttpReadSeeker
  deriving DecidableEq, Repr

/-- One `source.Read(buf)` call with `len(buf) = k` on the reference
in-memory source: returns up to `k` bytes from the current source
position; a closed body yields `http.ErrBodyReadAfterClose`; an
exhausted source yields `io.EOF`. -/
def sourceReadOnce (s : HttpReadSeeker) (k : Nat) : SrcOut :=
  if s.srcClosed then
    ⟨[], if k = 0 then ReadErr.ok else ReadErr.bodyReadAfterClose, s⟩
  else
    let bytes := (s.content.drop s.srcPos).take k
    let err := if k = 0 then ReadErr.ok
      else if s.content.length ≤ s.srcPos then ReadErr.eof else ReadErr.ok
    ⟨bytes, err, { s with srcPos := s.srcPos + bytes.length }⟩

/-- Model of `io.ReadFull(source, buf)` with `len(buf) = k` on the reference
in-memory source: reads until `buf` is full or the source is exhausted;
`io.EOF` when nothing was read, `io.ErrUnexpectedEOF` on a short read. -/
def sourceReadFull (s : HttpReadSeeker) (k : Nat) : SrcOut :=
  if s.srcClosed then
    ⟨[], if k = 0 then ReadErr.ok else ReadErr.bodyReadAfterClose, s⟩
  else
    let bytes := (s.content.drop s.srcPos).take k
    let err := if bytes.length = k then ReadErr.ok
      else if bytes.length = 0 then ReadErr.eof else ReadErr.unexpectedEof
    ⟨bytes, err, { s with srcPos := s.srcPos + bytes.length }⟩

/-- Model of `h.source.Close()`: marks the source closed and counts the invocation. -/
def sourceClose (s : HttpReadSeeker) : HttpReadSeeker :=
  { s with srcClosed := true, closeCount := s.closeCount + 1 }

/-- Result of `HttpReadSeeker.Seek`. -/
structure SeekResult where
  pos : Int
  err : ReadErr
  st : HttpReadSeeker
  deriving DecidableEq, Repr

/-- The absolute position computed by the `switch whence` block of
`HttpReadSeeker.Seek` (Go `io.SeekStart = 0`, `io.SeekCurrent = 1`,
`io.SeekEnd = 2`; any other value leaves `pos` at its zero value). -/
def seekTarget (s : HttpReadSeeker) (offset : Int) (whence : Nat) : Int :=
  match whence with
  | 0 => offset
  | 1 => s.readIndex + offset
  | 2 => s.totalSize + offset
  | _ => 0

/-- Model of `HttpReadSeeker.Seek` (readseeker.go lines 157-183). -/
def Seek (s : HttpReadSeeker) (offset : Int) (whence : Nat) : SeekResult :=
  let pos := seekTarget s offset whence
  if pos < 0 ∨ s.totalSize < pos then
    ⟨s.readIndex, ReadErr.outOfSize, s⟩
  else
    ⟨pos, ReadErr.ok,
      { s with readIndex := pos,
               done := if pos = s.totalSize then true else false }⟩

/-- Model of `HttpReadSeeker.Close` (readseeker.go lines 75-94): drops the buffer,
stops the buffering task once, and releases the source iff `done` is not
yet set. -/
def Close (s : HttpReadSeeker) : HttpReadSeeker :=
  let s1 := { s with buffer := ([] : List Nat) }
  let s2 := if s1.buffered = false then { s1 with buffered := true } else s1
  if s2.done = false then { (sourceClose s2) with done := true } else s2

/-- Result of `HttpReadSeeker.Read`: `out` is the list of bytes written
into `dest` (a prefix of `dest` is overwritten with them), `n` the
returned count, `err` the returned error, `st` the updated state. -/
structure ReadResult where
  out : List Nat
  n : Int
  err : ReadErr
  st : HttpReadSeeker
  deriving DecidableEq, Repr

/-- The error-translation epilogue of `HttpReadSeeker.Read` (lines
143-151): a first `io.EOF` releases the source and marks the handle
done; `http.ErrBodyReadAfterClose` is converted into `io.EOF`. -/
def readFinalize (out : List Nat) (n : Int) (err : ReadErr)
    (s : HttpReadSeeker) : ReadResult :=
  if err = ReadErr.ok then ⟨out, n, err, s⟩
  else if err = ReadErr.eof ∧ s.done = false then
    ⟨out, n, ReadErr.eof, { (sourceClose s) with buffered := true, done := true }⟩
  else if err = ReadErr.bodyReadAfterClose then
    ⟨out, n, ReadErr.eof, s⟩
  else ⟨out, n, err, s⟩

/-- Model of `HttpReadSeeker.Read` (readseeker.go lines 100-155) for a
destination slice of length `destLen`.  When the cursor is at or past
the buffered region the gap plus the request is pulled with
`io.ReadFull` and appended; otherwise the read is served from the
buffer plus at most one direct source pull of the remainder. -/
def Read (s : HttpReadSeeker) (destLen : Nat) : ReadResult :=
  let readBufLen : Int := (s.buffer.length : Int)
  if readBufLen ≤ s.readIndex then
    let frameLen : Nat := (s.readIndex - readBufLen + (destLen : Int)).toNat
    let r := sourceReadFull s frameLen
    let n : Int := (r.bytes.length : Int)
    let s1 := { r.st with buffer := r.st.buffer ++ r.bytes }
    let outErr :=
      if s.readIndex < (s1.buffer.length : Int) then
        ((s1.buffer.drop s.readIndex.toNat).take destLen, r.err)
      else
        (([] : List Nat), ReadErr.eof)
    let s2 := { s1 with readIndex := s.readIndex + n - (s.readIndex - readBufLen) }
    readFinalize outErr.1 n outErr.2 s2
  else
    let endIndex : Int := min (s.readIndex + (destLen : Int)) readBufLen
    let bufferedPart := (s.buffer.drop s.readIndex.toNat).take (endIndex - s.readIndex).toNat
    if 0 < (destLen : Int) - (bufferedPart.length : Int) then
      let r := sourceReadOnce s ((destLen : Int) - (bufferedPart.length : Int)).toNat
      let n : Int := (bufferedPart.length : Int) + (r.bytes.length : Int)
      let s1 := { r.st with buffer := r.st.buffer ++ r.bytes, readIndex := s.readIndex + n }
      let err := if s.totalSize ≤ s1.readIndex then ReadErr.eof else r.err
      readFinalize (bufferedPart ++ r.bytes) n err s1
    else
      let n : Int := (bufferedPart.length : Int)
      let s1 := { s with readIndex := s.readIndex + n }
      let err := if s.totalSize ≤ s1.readIndex then ReadErr.eof else ReadErr.ok
      readFinalize bufferedPart n err s1

/-- The fixed per-tick pre-fetch chunk `_BUFFERING_AMOUNT`. -/
def bufferingAmount : Nat := 256

/-- One iteration of the background buffering loop
`HttpReadSeeker.bufferFrames` (readseeker.go lines 42-73) with chunk
size `size`: halts (setting `buffered`) once the whole declared size is
buffered or the source reports end-of-stream, otherwise pulls up to
`size` further bytes and appends them. -/
def bufferStep (s : HttpReadSeeker) (size : Nat) : HttpReadSeeker :=
  if s.buffered = true ∨ s.totalSize ≤ (s.buffer.length : Int) then
    { s with buffered := true }
  else
    let r := sourceReadOnce s size
    if r.err = ReadErr.ok ∨ r.err = ReadErr.eof then
      let s1 := { r.st with buffer := r.st.buffer ++ r.bytes }
      if r.err = ReadErr.eof then { s1 with buffered := true } else s1
    else r.st

/-- Model of `HttpReadSeeker.IsDone` with its nil-receiver guard (`none` models a
nil `*HttpReadSeeker`). -/
def isDoneQuery : Option HttpReadSeeker → Bool
  | none => false
  | some s => s.done

/-- Model of `HttpReadSeeker.Progress` with its nil-receiver guard. -/
def progressQuery : Option HttpReadSeeker → ℚ
  | none => 0
  | some s => (s.readIndex : ℚ) / (s.totalSize : ℚ)

/-- Model of `HttpReadSeeker.BufferingProgress` with its nil-receiver guard. -/
def bufferingProgressQuery : Option HttpReadSeeker → ℚ
  | none => 0
  | some s => ((s.buffer.length : Int) : ℚ) / (s.totalSize : ℚ)

/-- A concrete well-formed handle used by the witnesses: five bytes of
content, two of them already buffered, cursor at one. -/
def sampleState : HttpReadSeeker :=
  { content := [10, 20, 30, 40, 50]
    srcPos := 2
    srcClosed := false
    closeCount := 0
    readIndex := 1
    totalSize := 5
    buffer := [10, 20]
    buffered := false
    done := false }

/-- C3: for every seek request the absolute position is computed from
the offset for start/current/end origins; an out-of-range position
(negative or beyond the declared total) yields the bounds error with the
state (hence the cursor) unchanged; otherwise the cursor is set to the
position and the done flag holds exactly when the position equals the
total, in particular it is cleared strictly below the total. -/
theorem C3_seek_semantics (s : HttpReadSeeker) (offset : Int) (whence : Nat) :
    (seekTarget s offset whence < 0 ∨ s.totalSize < seekTarget s offset whence →
      (Seek s offset whence).err = ReadErr.outOfSize ∧
      (Seek s offset whence).st = s ∧
      (Seek s offset whence).st.readIndex = s.readIndex) ∧
    (0 ≤ seekTarget s offset whence → seekTarget s offset whence ≤ s.totalSize →
      (Seek s offset whence).err = ReadErr.ok ∧
      (Seek s offset whence).st.readIndex = seekTarget s offset whence ∧
      ((Seek s offset whence).st.done = true ↔ seekTarget s offset whence = s.totalSize) ∧
      (seekTarget s offset whence < s.totalSize →
        (Seek s offset whence).st.done = false)) := by
  constructor
  · intro h
    rw [Seek, if_pos (by omega)]
    exact ⟨rfl, rfl, rfl⟩
  · intro h0 hle
    rw [Seek, if_neg (by omega)]
    refine ⟨rfl, rfl, ?_, ?_⟩
    · by_cases he : seekTarget s offset whence = s.totalSize <;> simp [he]
    · intro hlt
      have : ¬ seekTarget s offset whence = s.totalSize := by omega
      simp [this]

/-- Witness for C3 at a concrete state: a seek to absolute position 3 on
`sampleState` succeeds, moves the cursor to 3 and leaves done cleared;
a seek to 7 is rejected with the state unchanged. -/
theorem C3_seek_semantics_witness :
    (Seek sampleState 3 0).st.readIndex = 3 ∧
    (Seek sampleState 3 0).st.done = false ∧
    (Seek sampleState 7 0).err = ReadErr.outOfSize ∧
    (Seek sampleState 7 0).st = sampleState := by
  refine ⟨((C3_seek_semantics sampleState 3 0).2 (by decide) (by decide)).2.1, ?_, ?_, ?_⟩
  · exact ((C3_seek_semantics sampleState 3 0).2 (by decide) (by decide)).2.2.2 (by decide)
  · exact ((C3_seek_semantics sampleState 7 0).1 (by decide)).1
  · exact ((C3_seek_semantics sampleState 7 0).1 (by decide)).2.1

/-- C10: the three queries are total on a nil receiver: `IsDone` on nil
returns false and both `Progress` and `BufferingProgress` on nil
return 0. -/
theorem C10_nil_queries :
    isDoneQuery none = false ∧
    progressQuery none = 0 ∧
    bufferingProgressQuery none = 0 :=
  ⟨rfl, rfl, rfl⟩

/-! ### Playback controller (tracker.go) -/

/-- Go `int64(f)` conversion of an exact rational: truncation toward
zero. -/
def goTrunc (q : ℚ) : Int := if 0 ≤ q then ⌊q⌋ else ⌈q⌉

/-- Go `math.Round`: rounding half away from zero. -/
def goRound (q : ℚ) : Int :=
  if 0 ≤ q then ⌊q + 1 / 2⌋ else ⌈q - 1 / 2⌉

/-- Go `%` on `int64`: truncated remainder. -/
def goMod (a b : Int) : Int := Int.tmod a b

/-- The seek issued (through the player/decoder) by `Model.Rewind`, or
the `STOP` message it sends when no player is attached. -/
inductive SeekAction where
  | sendStop
  | toStart
  | toEnd
  | toPos (pos : Int)
  deriving DecidableEq, Repr

/-- The slice of tracker state that `Model.Rewind` consumes: the
stream handle length (`trackReader.Length()`), the track duration in
milliseconds (`trackWrapper.trackDurationMs`), the handle progress
fraction (`trackReader.Progress()`), the ynison-synchronization flag
and whether a player (and wrapper) is attached. -/
structure RewindEnv where
  length : Int
  durationMs : Int
  progress : ℚ
  ynison : Bool
  playerActive : Bool
  deriving DecidableEq, Repr

/-- Observable outcome of `Model.Rewind`: the seek performed and the
number of `UpdatePlayingStatus` transport events emitted. -/
structure RewindOut where
  action : SeekAction
  eventCount : Nat
  deriving DecidableEq, Repr

/-- Model of `Model.Rewind` (tracker.go lines 419-449): converts the signed
millisecond delta into a byte offset via `length / durationMs`, adds it
to the current byte position, adds `pos % 4` to the result, then clamps
and seeks; a transport event is emitted only when synchronization is
active and the change is locally initiated (`report`). -/
def Rewind (env : RewindEnv) (amountMs : Int) (report : Bool) : RewindOut :=
  if env.playerActive = false then ⟨SeekAction.sendStop, 0⟩
  else
    let currentPos0 := goTrunc ((env.length : ℚ) * env.progress)
    let byteOffset := goRound ((env.length : ℚ) / (env.durationMs : ℚ) * (amountMs : ℚ))
    let pos1 := currentPos0 + byteOffset
    let pos2 := pos1 + goMod pos1 4
    let action :=
      if pos2 ≤ 0 then SeekAction.toStart
      else if env.length ≤ pos2 then SeekAction.toEnd
      else SeekAction.toPos pos2
    let events := if env.ynison = true ∧ report = true then 1 else 0
    ⟨action, events⟩

/-- The volume-related slice of tracker state: the stored volume field,
whether a player is attached, and the volume last applied to the output
player. -/
structure TrackerVol where
  volume : ℚ
  playerActive : Bool
  playerVolume : ℚ
  deriving DecidableEq, Repr

/-- Model of `Model.SetVolume` (tracker.go lines 298-310): stores `v`, clamps the
stored field into `[0, 1]`, and, when a player is attached, calls
`player.SetVolume` with the original argument `v`. -/
def SetVolume (s : TrackerVol) (v : ℚ) : TrackerVol :=
  let vol := v
  let vol := if vol < 0 then (0 : ℚ) else if 1 < vol then (1 : ℚ) else vol
  let s1 := { s with volume := vol }
  if s1.playerActive = true then { s1 with playerVolume := v } else s1

/-! ### Remote reconciler (mainpage ynison OnMessage handler) -/

/-- The fixed drift tolerance in milliseconds. -/
def driftToleranceMs : Int := 5000

/-- The drift comparison of the OnMessage handler: when the snapshot
progress differs from the locally computed position by strictly more
than the tolerance, the signed difference to rewind by is produced. -/
def progressSyncDelta (remoteProgressMs localPosMs : Int) : Option Int :=
  if driftToleranceMs < |remoteProgressMs - localPosMs| then
    some (remoteProgressMs - localPosMs)
  else none

/-- The progress-reconciliation step of the OnMessage handler: on
excessive drift it invokes `Model.Rewind` with the signed difference and
`report = false`. -/
def applyProgressSync (env : RewindEnv) (remoteProgressMs localPosMs : Int) :
    Option RewindOut :=
  match progressSyncDelta remoteProgressMs localPosMs with
  | some d => some (Rewind env d false)
  | none => none

/-- An inbound ynison snapshot as consumed by the OnMessage handler:
the reported active-device identifier and an abstract payload standing
for the full remote player state (`pysr.GetPlayerState()`). -/
structure Snapshot where
  activeDeviceId : String
  playerStateTag : Nat
  deriving DecidableEq, Repr

/-- The reconciler-owned state: the stored remote player state
(`m.PlayerState`) together with the rest of the mainpage model
(playlist, tracklist, tracker, playback session), abstracted as `rest`
since the device-identifier gate returns before touching it. -/
structure ReconcilerState (σ : Type) where
  playerState : Option Nat
  rest : σ

/-- The OnMessage handler prologue (mainpage `Run`): the snapshot player
state is stored into `m.PlayerState` first, and only then is the
active-device identifier compared with the local one; on mismatch the
handler returns, otherwise the remaining reconciliation (`process`) runs. -/
def onMessage {σ : Type} (localDeviceId : String)
    (process : ReconcilerState σ → Snapshot → ReconcilerState σ)
    (s : ReconcilerState σ) (snap : Snapshot) : ReconcilerState σ :=
  let s1 := { s with playerState := some snap.playerStateTag }
  if snap.activeDeviceId ≠ localDeviceId then s1
  else process s1 snap

/-- The rewind environment of the C2 failing input: a 1000-byte handle
over a 1000 ms track (one byte per millisecond), player attached,
cursor at the start. -/
def envSmall : RewindEnv :=
  { length := 1000, durationMs := 1000, progress := 0
    ynison := false, playerActive := true }

/-- The rewind environment of the C2 spec scenario: track duration
200000 ms, handle length 3200000 bytes, cursor at the start. -/
def scenarioEnv : RewindEnv :=
  { length := 3200000, durationMs := 200000, progress := 0
    ynison := false, playerActive := true }

/-- C2 evaluated on the code: `rewind(+5ms)` on a 1000-byte, 1000 ms
track from position 0 gives byte offset 5, and the alignment step
`pos += pos % 4` of tracker.go line 431 turns it into a seek to byte 6,
which is not a multiple of 4 (aligning down would give 4); the spec
scenario itself (duration 200000 ms, length 3200000 bytes, rewind +5 s
from position 0) does land on the 4-aligned position 80000. -/
theorem C2_alignment_bug :
    Rewind envSmall 5 false = ⟨SeekAction.toPos 6, 0⟩ ∧
    ¬ goMod 6 4 = 0 ∧
    Rewind scenarioEnv 5000 false = ⟨SeekAction.toPos 80000, 0⟩ ∧
    goMod 80000 4 = 0 := by
  refine ⟨?_, by decide, ?_, by decide⟩
  · rw [Rewind]
    norm_num [envSmall, goTrunc, goRound, goMod, Int.tmod]
  · rw [Rewind]
    norm_num [scenarioEnv, goTrunc, goRound, goMod, Int.tmod]

/-- C9 evaluated on the code: `setVolume(3/2)` with an attached player
clamps the stored volume field to 1 but applies the raw argument 3/2 to
the output player, and 3/2 lies outside `[0, 1]`. -/
theorem C9_volume_bug :
    SetVolume ⟨1 / 2, true, 1 / 2⟩ (3 / 2) = ⟨1, true, 3 / 2⟩ ∧
    ¬ ((3 : ℚ) / 2 ≤ 1) := by
  constructor
  · norm_num [SetVolume]
  · norm_num

/-- C7: whenever the snapshot progress differs from the local position
by strictly more than the 5000 ms tolerance, the handler applies a local
rewind by the signed difference with `report = false` (not locally
initiated), and that rewind emits no outbound transport event. -/
theorem C7_drift_correction (env : RewindEnv) (remoteProgressMs localPosMs : Int)
    (h : driftToleranceMs < |remoteProgressMs - localPosMs|) :
    applyProgressSync env remoteProgressMs localPosMs =
      some (Rewind env (remoteProgressMs - localPosMs) false) ∧
    (Rewind env (remoteProgressMs - localPosMs) false).eventCount = 0 := by
  constructor
  · rw [applyProgressSync, progressSyncDelta, if_pos h]
  · rw [Rewind]
    by_cases hp : env.playerActive = false
    · simp [hp]
    · simp [hp]

/-- Witness for C7 at the spec scenario: snapshot progress 50000 ms,
local position 44000 ms (drift 6000 ms), player attached: the handler
rewinds by +6000 ms not locally initiated and emits nothing outward. -/
theorem C7_drift_correction_witness :
    applyProgressSync { scenarioEnv with ynison := true } 50000 44000 =
      some (Rewind { scenarioEnv with ynison := true } 6000 false) ∧
    (Rewind { scenarioEnv with ynison := true } 6000 false).eventCount = 0 :=
  C7_drift_correction { scenarioEnv with ynison := true } 50000 44000 (by decide)

/-- C8 evaluated on the code: a snapshot whose active-device identifier
differs from the local one still mutates the reconciler: the stored
remote player state field is overwritten before the identifier check,
so the state does change. -/
theorem C8_mismatch_still_mutates :
    onMessage (σ := Nat) "local-device" (fun s _ => s)
        ⟨none, 0⟩ ⟨"other-device", 5⟩ ≠ ⟨none, 0⟩ := by
  intro h
  have := congrArg ReconcilerState.playerState h
  simp [onMessage] at this

/-- C8 amended: on an active-device mismatch the handler changes only
the stored remote player state field; every other part of the local
state (`rest`: playlist, tracker, playback session) is untouched,
whatever the matching-branch reconciliation `process` would do. -/
theorem C8_mismatch_frame (σ : Type) (localDeviceId : String)
    (process : ReconcilerState σ → Snapshot → ReconcilerState σ)
    (s : ReconcilerState σ) (snap : Snapshot)
    (h : snap.activeDeviceId ≠ localDeviceId) :
    onMessage localDeviceId process s snap =
      { playerState := some snap.playerStateTag, rest := s.rest } := by
  rw [onMessage, if_pos h]

/-- Witness for C8 amended: at the concrete mismatching snapshot the
handler stores the new player state and leaves the rest untouched. -/
theorem C8_mismatch_frame_witness :
    onMessage (σ := Nat) "local-device" (fun s _ => s)
        ⟨none, 7⟩ ⟨"other-device", 5⟩ = ⟨some 5, 7⟩ :=
  C8_mismatch_frame Nat "local-device" (fun s _ => s) ⟨none, 7⟩
    ⟨"other-device", 5⟩ (by decide)

/-! ### Background buffering (C6) -/

/-- A fresh handle over 600 bytes, as `newReadSeaker` constructs it:
nothing buffered, cursor at zero. -/
def freshHandle600 : HttpReadSeeker :=
  { content := List.replicate 600 0
    srcPos := 0
    srcClosed := false
    closeCount := 0
    readIndex := 0
    totalSize := 600
    buffer := []
    buffered := false
    done := false }

set_option maxRecDepth 100000 in
/-- C6 evaluated on the code: two background buffering iterations alone
grow the buffer to 512 bytes, strictly beyond the 256-byte chunk the
claim calls the watermark, while the source still has 88 bytes
remaining; the loop in `bufferFrames` only stops at the declared total
size (or end-of-stream), not at 256 bytes. -/
theorem C6_watermark_exceeded :
    (bufferStep (bufferStep freshHandle600 bufferingAmount) bufferingAmount).buffer.length = 512 ∧
    bufferingAmount < 512 ∧
    (bufferStep (bufferStep freshHandle600 bufferingAmount) bufferingAmount).srcPos
      < freshHandle600.content.length ∧
    (bufferStep (bufferStep freshHandle600 bufferingAmount) bufferingAmount).buffered = false := by
  refine ⟨?_, by decide, ?_, ?_⟩ <;> decide

/-- Bytes obtained by one source read never exceed the request. -/
theorem sourceReadOnce_bytes_le (s : HttpReadSeeker) (k : Nat) :
    (sourceReadOnce s k).bytes.length ≤ k := by
  rw [sourceReadOnce]
  split
  · simp
  · simp

/-- One source read leaves the accumulated buffer untouched. -/
theorem sourceReadOnce_buffer (s : HttpReadSeeker) (k : Nat) :
    (sourceReadOnce s k).st.buffer = s.buffer := by
  rw [sourceReadOnce]
  split <;> rfl

/-- C6 amended: one background buffering iteration appends at most
`size` (256) bytes, and once the handle is flagged buffered or the
buffer has reached the declared total size the iteration appends
nothing and leaves the source position alone (the task halts); repeated
iterations, however, keep growing the buffer up to the total size. -/
theorem C6_buffer_step_bound (s : HttpReadSeeker) (size : Nat) :
    (bufferStep s size).buffer.length ≤ s.buffer.length + size ∧
    (s.buffered = true ∨ s.totalSize ≤ (s.buffer.length : Int) →
      (bufferStep s size).buffer = s.buffer ∧ (bufferStep s size).srcPos = s.srcPos) := by
  constructor
  · rw [bufferStep]
    split
    · simp
    · dsimp only
      split
      · split
        · simpa [sourceReadOnce_buffer] using sourceReadOnce_bytes_le s size
        · simpa [sourceReadOnce_buffer] using sourceReadOnce_bytes_le s size
      · simp [sourceReadOnce_buffer]
  · intro h
    rw [bufferStep, if_pos h]
    exact ⟨rfl, rfl⟩

/-- Witness for C6 amended at concrete inputs: a single iteration on the
fresh 600-byte handle appends at most 256 bytes, and an iteration on an
already fully-buffered handle appends nothing. -/
theorem C6_buffer_step_bound_witness :
    (bufferStep freshHandle600 bufferingAmount).buffer.length ≤
      freshHandle600.buffer.length + bufferingAmount ∧
    (bufferStep { freshHandle600 with buffered := true } bufferingAmount).buffer =
      ({ freshHandle600 with buffered := true } : HttpReadSeeker).buffer :=
  ⟨(C6_buffer_step_bound freshHandle600 bufferingAmount).1,
   ((C6_buffer_step_bound { freshHandle600 with buffered := true } bufferingAmount).2
     (Or.inl rfl)).1⟩

/-! ### Source release discipline (C5) -/

/-- An operation applied by the player to one stream handle. -/
inductive StreamOp where
  | read (destLen : Nat)
  | seek (offset : Int) (whence : Nat)
  | close
  deriving DecidableEq, Repr

/-- Apply one operation to the handle state. -/
def applyOp (s : HttpReadSeeker) : StreamOp → HttpReadSeeker
  | StreamOp.read k => (Read s k).st
  | StreamOp.seek off w => (Seek s off w).st
  | StreamOp.close => Close s

/-- Run a sequence of operations on the handle. -/
def runOps (s : HttpReadSeeker) (ops : List StreamOp) : HttpReadSeeker :=
  ops.foldl applyOp s

/-- A fresh handle over the single byte 7. -/
def oneByteHandle : HttpReadSeeker :=
  { content := [7]
    srcPos := 0
    srcClosed := false
    closeCount := 0
    readIndex := 0
    totalSize := 1
    buffer := []
    buffered := false
    done := false }

/-- C5 evaluated on the code: reading the single byte, reading once more
(hitting end-of-stream, which releases the source and sets done),
seeking back to the start (which clears done), and then closing invokes
the underlying source release twice. -/
theorem C5_double_release :
    (runOps oneByteHandle
      [StreamOp.read 1, StreamOp.read 1, StreamOp.seek 0 0, StreamOp.close]).closeCount
      = 2 := by
  decide

/-- The release budget invariant: the source has been released exactly
once when the handle is marked done and never otherwise. -/
def CloseBudget (s : HttpReadSeeker) : Prop :=
  s.closeCount = if s.done = true then 1 else 0

/-- The read epilogue preserves the release budget. -/
theorem readFinalize_budget (out : List Nat) (n : Int) (err : ReadErr)
    (s : HttpReadSeeker) (h : CloseBudget s) :
    CloseBudget (readFinalize out n err s).st := by
  unfold CloseBudget at h ⊢
  rw [readFinalize]
  split
  · exact h
  · split
    · rename_i hc
      simp [sourceClose, h, hc.2]
    · split
      · exact h
      · exact h

/-- A full source read touches neither the done flag nor the release
counter. -/
theorem sourceReadFull_flags (s : HttpReadSeeker) (k : Nat) :
    (sourceReadFull s k).st.done = s.done ∧
    (sourceReadFull s k).st.closeCount = s.closeCount := by
  rw [sourceReadFull]
  split <;> exact ⟨rfl, rfl⟩

/-- A single source read touches neither the done flag nor the release
counter. -/
theorem sourceReadOnce_flags (s : HttpReadSeeker) (k : Nat) :
    (sourceReadOnce s k).st.done = s.done ∧
    (sourceReadOnce s k).st.closeCount = s.closeCount := by
  rw [sourceReadOnce]
  split <;> exact ⟨rfl, rfl⟩

/-- The modelled `Read` preserves the release budget. -/
theorem Read_budget (s : HttpReadSeeker) (k : Nat) (h : CloseBudget s) :
    CloseBudget (Read s k).st := by
  rw [Read]
  split
  · apply readFinalize_budget
    unfold CloseBudget at h ⊢
    simp [(sourceReadFull_flags s _).1, (sourceReadFull_flags s _).2, h]
  · dsimp only
    split
    · apply readFinalize_budget
      unfold CloseBudget at h ⊢
      simp [(sourceReadOnce_flags s _).1, (sourceReadOnce_flags s _).2, h]
    · apply readFinalize_budget
      unfold CloseBudget at h ⊢
      simpa using h

/-- The modelled `Close` preserves the release budget. -/
theorem Close_budget (s : HttpReadSeeker) (h : CloseBudget s) :
    CloseBudget (Close s) := by
  unfold CloseBudget at h ⊢
  cases s with
  | mk content srcPos srcClosed closeCount readIndex totalSize buffer buffered done =>
    cases buffered <;> cases done <;> simp_all [Close, sourceClose]

/-- The modelled `Close` is idempotent on the handle state. -/
theorem Close_idem (s : HttpReadSeeker) : Close (Close s) = Close s := by
  cases s with
  | mk content srcPos srcClosed closeCount readIndex totalSize buffer buffered done =>
    cases buffered <;> cases done <;> rfl

/-- C5 amended: `close()` is idempotent (a second close releases and
discards nothing further), and over every sequence of read and close
operations the underlying source release is invoked at most once; a
seek that moves the cursor away from the end, however, clears the done
flag and re-arms one further release (see the counterexample). -/
theorem C5_release_at_most_once (s : HttpReadSeeker) (ops : List StreamOp)
    (hs : CloseBudget s)
    (hops : ∀ op ∈ ops, op = StreamOp.close ∨ ∃ k, op = StreamOp.read k) :
    (runOps s ops).closeCount ≤ 1 ∧ Close (Close s) = Close s := by
  refine ⟨?_, Close_idem s⟩
  have key : CloseBudget (runOps s ops) := by
    induction ops generalizing s with
    | nil => exact hs
    | cons op rest ih =>
      have hop := hops op (List.mem_cons_self op rest)
      have hrest : ∀ o ∈ rest, o = StreamOp.close ∨ ∃ k, o = StreamOp.read k :=
        fun o ho => hops o (List.mem_cons_of_mem op ho)
      rcases hop with hcl | ⟨k, hrd⟩
      · subst hcl
        exact ih (Close s) (Close_budget s hs) hrest
      · subst hrd
        exact ih (Read s k).st (Read_budget s k hs) hrest
  unfold CloseBudget at key
  split at key <;> omega

/-- Witness for C5 amended: from the fresh one-byte handle, reading
past the end and closing twice still releases the source only once. -/
theorem C5_release_at_most_once_witness :
    (runOps oneByteHandle
      [StreamOp.read 1, StreamOp.read 1, StreamOp.close, StreamOp.close]).closeCount ≤ 1 :=
  (C5_release_at_most_once oneByteHandle
    [StreamOp.read 1, StreamOp.read 1, StreamOp.close, StreamOp.close]
    (by unfold CloseBudget; decide)
    (by
      intro op hop
      simp only [List.mem_cons, List.not_mem_nil, or_false] at hop
      rcases hop with h | h | h | h
      · exact Or.inr ⟨1, h⟩
      · exact Or.inr ⟨1, h⟩
      · exact Or.inl h
      · exact Or.inl h)).1

/-! ### Reads after close (C4) -/

/-- Characterization of handle states after `Close`: done is set, the
cursor is non-negative and at or past the buffered region, and either
the source has been released and the buffer discarded, or — when done
had been set by a seek to the exact end while the source stayed open —
the cursor sits at or past everything the source can still deliver. -/
def PostClose (s : HttpReadSeeker) : Prop :=
  0 ≤ s.readIndex ∧ s.done = true ∧ (s.buffer.length : Int) ≤ s.readIndex ∧
  ((s.srcClosed = true ∧ s.buffer = []) ∨
   (s.srcClosed = false ∧
     (s.content.length : Int) ≤ (s.srcPos : Int) + s.readIndex - (s.buffer.length : Int)))

/-- In reachable states the done flag only holds when the source has
been released or the cursor has reached the declared end; under that
assumption `Close` establishes `PostClose`. -/
theorem Close_postClose (s : HttpReadSeeker) (h0 : 0 ≤ s.readIndex)
    (h1 : s.done = true → s.srcClosed = true ∨ (s.content.length : Int) ≤ s.readIndex) :
    PostClose (Close s) := by
  have hcs :
      Close s =
        { s with
          buffer := []
          buffered := true
          srcClosed := true
          closeCount := s.closeCount + 1
          done := true } ∨
      (s.done = true ∧ Close s = { s with buffer := [], buffered := true }) := by
    unfold Close sourceClose
    cases hb : s.buffered <;> cases hd : s.done <;> simp [hb, hd]
  rcases hcs with hcs | ⟨hd, hcs⟩
  · rw [hcs]
    exact ⟨h0, rfl, by simp; omega, Or.inl ⟨rfl, rfl⟩⟩
  · rw [hcs]
    rcases h1 hd with hsc | hlen
    · exact ⟨h0, hd, by simp; omega, Or.inl ⟨hsc, rfl⟩⟩
    · cases hb2 : s.srcClosed with
      | true => exact ⟨h0, hd, by simp; omega, Or.inl ⟨rfl, rfl⟩⟩
      | false =>
        refine ⟨h0, hd, by simp; omega, Or.inr ⟨rfl, ?_⟩⟩
        simp only [List.length_nil, Nat.cast_zero]
        omega

/-- A first end-of-stream on a handle already marked done is passed
through unchanged by the read epilogue. -/
theorem readFinalize_eof_of_done (out : List Nat) (n : Int) (s : HttpReadSeeker)
    (h : s.done = true) :
    readFinalize out n ReadErr.eof s = ⟨out, n, ReadErr.eof, s⟩ := by
  rw [readFinalize]
  simp [h]

/-- Any read on a post-close state returns end-of-data (never an
error), writes nothing, and stays post-close. -/
theorem Read_postClose (s : HttpReadSeeker) (L : Nat) (h : PostClose s) :
    (Read s L).err = ReadErr.eof ∧ (Read s L).out = [] ∧ PostClose (Read s L).st := by
  obtain ⟨h0, hdone, hbuf, hrest⟩ := h
  simp only [Read]
  rw [if_pos hbuf]
  rcases hrest with ⟨hc, hnil⟩ | ⟨hc, hlen⟩
  · -- the source has been released and the buffer discarded
    simp only [sourceReadFull, hc, if_true, hnil, List.length_nil, List.nil_append,
      Nat.cast_zero]
    rw [if_neg (show ¬ s.readIndex < (0 : Int) by omega)]
    rw [readFinalize_eof_of_done _ _ _ (by simpa using hdone)]
    refine ⟨rfl, rfl, ?_⟩
    unfold PostClose
    dsimp only
    refine ⟨by omega, hdone, by simp, Or.inl ⟨rfl, rfl⟩⟩
  · -- done was set by a seek to the end while the source stayed open
    have hblen : ((s.content.drop s.srcPos).take
        ((s.readIndex - (s.buffer.length : Int) + (L : Int)).toNat)).length ≤
        s.content.length - s.srcPos := by
      simp [List.length_take, List.length_drop]
    have hcond : ¬ s.readIndex <
        ((s.buffer ++ (s.content.drop s.srcPos).take
          ((s.readIndex - (s.buffer.length : Int) + (L : Int)).toNat)).length : Int) := by
      simp only [List.length_append]
      push_cast
      omega
    simp only [sourceReadFull, hc, Bool.false_eq_true, if_false]
    rw [if_neg hcond]
    rw [readFinalize_eof_of_done _ _ _ (by simpa using hdone)]
    refine ⟨rfl, rfl, ?_⟩
    have hblen2 : ((s.content.drop s.srcPos).take
        ((s.readIndex - (s.buffer.length : Int) + (L : Int)).toNat)).length =
        min ((s.readIndex - (s.buffer.length : Int) + (L : Int)).toNat)
          (s.content.length - s.srcPos) := by
      simp [List.length_take, List.length_drop]
    unfold PostClose
    refine ⟨?_, by simp [hdone], ?_, Or.inr ⟨by simp [hc], ?_⟩⟩
    · simp only
      omega
    · simp only [List.length_append]
      push_cast
      omega
    · simp only [List.length_append]
      push_cast
      omega

/-- The sequence of errors returned by consecutive reads of the given
lengths. -/
def readErrTrace (s : HttpReadSeeker) : List Nat → List ReadErr
  | [] => []
  | k :: ks => (Read s k).err :: readErrTrace (Read s k).st ks

/-- Every read in a trace starting from a post-close state returns
end-of-data. -/
theorem readErrTrace_postClose (ls : List Nat) :
    ∀ (s : HttpReadSeeker), PostClose s → ∀ e ∈ readErrTrace s ls, e = ReadErr.eof := by
  induction ls with
  | nil =>
    intro s _ e he
    simp [readErrTrace] at he
  | cons k ks ih =>
    intro s hs e he
    simp only [readErrTrace, List.mem_cons] at he
    rcases he with rfl | he
    · exact (Read_postClose s k hs).1
    · exact ih _ (Read_postClose s k hs).2.2 e he

/-- C4: after `close()` every subsequent read on the handle returns the
end-of-data signal rather than an error — source failures after the
handle is done/closed (the closed body reports
`http.ErrBodyReadAfterClose`) are translated into end-of-data by the
read path. -/
theorem C4_read_after_close (s : HttpReadSeeker) (ls : List Nat)
    (h0 : 0 ≤ s.readIndex)
    (h1 : s.done = true → s.srcClosed = true ∨ (s.content.length : Int) ≤ s.readIndex) :
    ∀ e ∈ readErrTrace (Close s) ls, e = ReadErr.eof :=
  readErrTrace_postClose ls (Close s) (Close_postClose s h0 h1)

/-- Witness for C4: on the concrete sample handle, the first read after
close returns end-of-data. -/
theorem C4_read_after_close_witness :
    (Read (Close sampleState) 3).err = ReadErr.eof :=
  C4_read_after_close sampleState [3] (by decide) (by decide) _ (by simp [readErrTrace])

/-! ### Seek-then-read round trip against the linear source (C1) -/

/-- The read epilogue never changes the bytes delivered to `dest`. -/
theorem readFinalize_out (out : List Nat) (n : Int) (err : ReadErr)
    (s : HttpReadSeeker) : (readFinalize out n err s).out = out := by
  rw [readFinalize]
  split
  · rfl
  · split
    · rfl
    · split <;> rfl

/-- On a live well-formed handle — source open, accumulated buffer a
prefix of the content of length `srcPos`, declared total equal to the
content length — a read at any in-range cursor delivers exactly the
bytes of a linear read of the content starting at the cursor. -/
theorem Read_out_linear (s : HttpReadSeeker) (L : Nat)
    (hsc : s.srcClosed = false)
    (hbuf : s.buffer = s.content.take s.srcPos)
    (hk : s.srcPos ≤ s.content.length)
    (h0 : 0 ≤ s.readIndex)
    (hle : s.readIndex ≤ (s.content.length : Int)) :
    (Read s L).out = (s.content.drop s.readIndex.toNat).take L := by
  obtain ⟨c, k, sc, cc, ri, ts, bf, bfd, dn⟩ := s
  simp only at hsc hbuf hk h0 hle ⊢
  subst hsc hbuf
  simp only [Read, sourceReadFull, sourceReadOnce, Bool.false_eq_true, if_false]
  simp only [List.length_take, Nat.min_eq_left hk]
  by_cases hA : ((k : Nat) : Int) ≤ ri
  · -- cursor at or past the buffered region: one ReadFull of gap + request
    rw [if_pos hA]
    rw [readFinalize_out]
    simp only [List.length_append, List.length_take, List.length_drop,
      Nat.min_eq_left hk]
    by_cases hIn :
        ri < (((k + min ((ri - ((k : Nat) : Int) + ((L : Nat) : Int)).toNat)
          (c.length - k)) : Nat) : Int)
    · rw [if_pos hIn]
      dsimp only
      rw [← List.take_add, List.drop_take, List.take_take]
      congr 1
      omega
    · rw [if_neg hIn]
      dsimp only
      have hcase : c.length ≤ ri.toNat ∨ L = 0 := by omega
      rcases hcase with hcl | hL
      · rw [List.drop_eq_nil_of_le hcl]
        simp
      · subst hL
        simp
  · -- cursor strictly inside the buffered region
    rw [if_neg hA]
    simp only [List.drop_take, List.take_take, List.length_take, List.length_drop]
    split
    · rename_i hB
      rw [readFinalize_out]
      have hdd : List.drop k c = List.drop (k - ri.toNat) (List.drop ri.toNat c) := by
        rw [List.drop_drop]
        congr 1
        omega
      have hm2 : min ((min (ri + ((L : Nat) : Int)) ((k : Nat) : Int) - ri).toNat)
          (min (k - ri.toNat) (c.length - ri.toNat)) = k - ri.toNat := by omega
      have hm1 : min ((min (ri + ((L : Nat) : Int)) ((k : Nat) : Int) - ri).toNat)
          (k - ri.toNat) = k - ri.toNat := by omega
      rw [hm2, hm1, hdd, ← List.take_add]
      congr 1
      omega
    · rename_i hB
      rw [readFinalize_out]
      congr 1
      omega

/-- C1: for every valid seek target within `[0, total]` reached via any
origin, and every read length, seek followed by read on a live
well-formed handle delivers exactly the bytes a linear read of the
reference source of known content and length would yield from that
absolute offset, regardless of how much was previously buffered
(`srcPos`) or read (`readIndex`). -/
theorem C1_seek_then_read (s : HttpReadSeeker) (offset : Int) (whence : Nat) (L : Nat)
    (hsc : s.srcClosed = false)
    (hbuf : s.buffer = s.content.take s.srcPos)
    (hk : s.srcPos ≤ s.content.length)
    (htot : s.totalSize = (s.content.length : Int))
    (hlo : 0 ≤ seekTarget s offset whence)
    (hhi : seekTarget s offset whence ≤ s.totalSize) :
    (Read (Seek s offset whence).st L).out =
      (s.content.drop (seekTarget s offset whence).toNat).take L := by
  have hseek : (Seek s offset whence).st =
      { s with readIndex := seekTarget s offset whence,
               done := if seekTarget s offset whence = s.totalSize then true else false } := by
    rw [Seek, if_neg (by omega)]
  rw [hseek]
  exact Read_out_linear _ L hsc hbuf hk hlo (by rw [htot] at hhi; exact hhi)

/-- Witness for C1: on the concrete sample handle (two of five bytes
already buffered, cursor at one), seeking to absolute position 3 and
reading four bytes yields exactly bytes 3 and 4 of the source. -/
theorem C1_seek_then_read_witness :
    (Read (Seek sampleState 3 0).st 4).out = [40, 50] := by
  have h := C1_seek_then_read sampleState 3 0 4 rfl (by decide) (by decide)
    (by decide) (by decide) (by decide)
  rw [h]
  decide

end Yamusic
